import Mathlib

/-!
Verification of the code-review pipeline core.

Shallow embedding of the analysis-and-aggregation pipeline:
the language detector, structural analyzer and rule-based issue checker
(`utils/code_analyzer.py`), the LLM response wrapper (`utils/lim_manager.py`),
the retrieval merge (`utils/rag_manager.py`), and the six pipeline stages plus
summary synthesizer (`agents/code_review_agents.py`).

External collaborators (the CPython `ast` parser, the LLM invocation, the
JSON decoder applied to free-form model text, and the vector-store search)
are modeled as explicit function parameters; everything else is translated
directly from the source.
-/

namespace CodeReview

/-! ### Character classes

Python's `re` module classes, restricted to ASCII.  `\w` is `[A-Za-z0-9_]`,
`\s` is `[ \t\n\r\v\f]`, `[0-9]` is the ASCII digits; `str.strip()` removes
the `\s` characters from both ends.  (Python additionally treats some
non-ASCII codepoints as word/space characters; every input appearing in a
theorem below is ASCII, where the two semantics agree.) -/

def isWordChar (c : Char) : Bool :=
  c.isAlpha || c.isDigit || c = '_'

def isSpaceChar (c : Char) : Bool :=
  c = ' ' || c = '\t' || c = '\n' || c = '\r' || c = '\x0b' || c = '\x0c'

/-- Python `str.strip()` on the character list. -/
def pyStripList (cs : List Char) : List Char :=
  ((cs.dropWhile isSpaceChar).reverse.dropWhile isSpaceChar).reverse

/-- Python `str.strip()`. -/
def pyStrip (s : String) : String :=
  String.mk (pyStripList s.data)

/-- Substring containment, Python's `needle in haystack`. -/
def containsSub (needle : List Char) : List Char → Bool
  | [] => needle.isEmpty
  | c :: rest => needle.isPrefixOf (c :: rest) || containsSub needle rest

/-! ### Whole-word keyword counting

`len(re.findall(r'\b' + kw + r'\b', code))` for a keyword `kw` made of word
characters: a match at a position requires `kw` to occur there, the previous
character (if any) to be a non-word character, and the following character
(if any) to be a non-word character.  Because keywords consist solely of word
characters, such matches can never overlap, so counting all match positions
agrees with `re.findall`'s left-to-right non-overlapping scan. -/

def wordBoundaryAfter (kw s : List Char) : Bool :=
  match s.drop kw.length with
  | [] => true
  | c :: _ => !isWordChar c

/-- Count of whole-word occurrences of `kw` in the suffix `s`, where `prev`
is the character immediately before `s` (`none` at the start of the text). -/
def countWordFrom (kw : List Char) (prev : Option Char) : List Char → Nat
  | [] => 0
  | c :: rest =>
    let prevOk := match prev with
      | none => true
      | some p => !isWordChar p
    let hit := prevOk && kw.isPrefixOf (c :: rest) && wordBoundaryAfter kw (c :: rest)
    (if hit then 1 else 0) + countWordFrom kw (some c) rest

/-- `len(re.findall(r'\b' + kw + r'\b', s))`. -/
def countWord (kw s : String) : Nat :=
  countWordFrom kw.data none s.data

/-- `re.search(r'\b' + kw + r'\b', s)` succeeds. -/
def hasWord (kw s : String) : Bool :=
  0 < countWord kw s

/-! ### Language detector (`CodeAnalyzer.detect_language`) -/

/-- The `language_patterns` table from `CodeAnalyzer.__init__`, in its
insertion order: `(language, extensions, keywords)`.  (The `comment` entry of
the source table is never read by any code under analysis and is omitted.) -/
def language_patterns : List (String × List String × List String) :=
  [ ("python", ([".py"],
      ["def", "class", "import", "from", "if", "for", "while", "try", "except"])),
    ("javascript", ([".js", ".jsx"],
      ["function", "var", "let", "const", "if", "for", "while", "try", "catch"])),
    ("typescript", ([".ts", ".tsx"],
      ["function", "var", "let", "const", "interface", "type", "class"])),
    ("java", ([".java"],
      ["public", "private", "class", "interface", "if", "for", "while", "try", "catch"])) ]

/-- Python `filename.endswith(ext)`. -/
def strEndsWith (s suffix : String) : Bool :=
  suffix.data.isSuffixOf s.data

/-- Python `s.startswith(pre)`. -/
def strStartsWith (s pre : String) : Bool :=
  pre.data.isPrefixOf s.data

/-- The extension-matching loop: first language (in table order) one of whose
extensions is a suffix of `filename`; skipped entirely when `filename` is
empty. -/
def extensionMatch (filename : String) : Option String :=
  if filename = "" then none
  else language_patterns.findSome? fun p =>
    if p.2.1.any (fun ext => strEndsWith filename ext) then some p.1 else none

/-- Keyword score of one language: the summed whole-word occurrence counts of
its keywords in `code`. -/
def keywordScore (code : String) (keywords : List String) : Nat :=
  keywords.foldl (fun acc kw => acc + countWord kw code) 0

/-- Python `max(scores, key=scores.get)` over the scores dict in insertion
order: the first entry whose score is maximal. -/
def firstMax (s0 : String × Nat) (rest : List (String × Nat)) : String :=
  (rest.foldl (fun best cur => if cur.2 > best.2 then cur else best) s0).1

/-- `CodeAnalyzer.detect_language`.  Extension match first; otherwise score
every language by keyword occurrences and take the first maximal one;
`"unknown"` only in the (unreachable) case of an empty pattern table. -/
def detect_language (code : String) (filename : String := "") : String :=
  match extensionMatch filename with
  | some lang => lang
  | none =>
    let scores := language_patterns.map fun p => (p.1, keywordScore code p.2.2)
    match scores with
    | [] => "unknown"
    | s0 :: rest => firstMax s0 rest

example : detect_language "x = 1" "a.py" = "python" := by decide
example : detect_language "def f: try except import" = "python" := by decide
example : detect_language "" = "python" := by decide

/-! ### Line splitting

Python `code.split('\n')`: every newline separates, empty segments kept
(so `""` gives `[""]` and a trailing newline yields a final `""`). -/

def splitLinesList : List Char → List (List Char)
  | [] => [[]]
  | c :: rest =>
    if c = '\n' then [] :: splitLinesList rest
    else
      match splitLinesList rest with
      | [] => [[c]]
      | h :: t => (c :: h) :: t

/-- `code.split('\n')` as strings. -/
def splitLines (code : String) : List String :=
  (splitLinesList code.data).map String.mk

example : splitLines "a\nbc\n" = ["a", "bc", ""] := by decide
example : splitLines "" = [""] := by decide

/-! ### Structural analyzer (`CodeAnalyzer.analyze_code_structure`)

The CPython `ast` module is an external collaborator.  We model the parsed
tree as `PyNode`: the node kinds that `_analyze_python_code` distinguishes
keep their payload (name, 1-based line, argument count, `ast.get_docstring`
result, statement names of imports), and every other node kind collapses to
`other` with its child list.  `ast.parse` itself is an explicit parameter of
type `String → Except String PyNode`, a `SyntaxError` message on failure. -/

inductive PyNode where
  | functionDef (name : String) (lineno : Nat) (argCount : Nat)
      (docstring : Option String) (body : List PyNode)
  | classDef (name : String) (lineno : Nat) (docstring : Option String)
      (body : List PyNode)
  | pyImport (names : List String)
  | pyImportFrom (module : Option String)
  | ifStmt (body : List PyNode)
  | forStmt (body : List PyNode)
  | whileStmt (body : List PyNode)
  | tryStmt (body : List PyNode)
  | other (body : List PyNode)
deriving Repr

/-- One entry of `analysis['functions']`.  The Python-path dicts carry the
keys `args` and `docstring` while the generic-path dicts do not; `none` in
those two fields stands for the absent key (`docstring = some d` is a present
key whose value may itself be the rendered docstring). -/
structure FunctionInfo where
  name : String
  line : Nat
  args : Option Nat
  docstring : Option String
deriving DecidableEq, Repr

/-- One entry of `analysis['classes']`. -/
structure ClassInfo where
  name : String
  line : Nat
  methods : Nat
  docstring : Option String
deriving DecidableEq, Repr

/-- The keys written by `_analyze_python_code` / `_analyze_generic_code`
(everything of the analysis dict except `lines_of_code`).  An
`ast.ImportFrom` node can have `module = None` (`from . import x`), and the
source appends that value as-is, hence entries of type `Option String`. -/
structure StructParts where
  functions : List FunctionInfo
  classes : List ClassInfo
  importedModules : List (Option String)
  complexity_score : Nat
  issues : List String
deriving DecidableEq, Repr

def emptyParts : StructParts := ⟨[], [], [], 0, []⟩

def mergeParts (a b : StructParts) : StructParts :=
  ⟨a.functions ++ b.functions, a.classes ++ b.classes,
   a.importedModules ++ b.importedModules,
   a.complexity_score + b.complexity_score, a.issues ++ b.issues⟩

def PyNode.isFunctionDef : PyNode → Bool
  | .functionDef .. => true
  | _ => false

mutual

/-- The `ast.walk` loop of `_analyze_python_code`: every node of the tree is
visited exactly once and contributes according to its kind (`ast.walk` visits
in breadth-first order; this fold visits depth-first, which permutes the
collected lists but is otherwise the same aggregation — no theorem below
depends on the order of the collected lists). -/
def collectNode : PyNode → StructParts
  | .functionDef n l a d body =>
      mergeParts ⟨[⟨n, l, some a, d⟩], [], [], 0, []⟩ (collectBody body)
  | .classDef n l d body =>
      mergeParts ⟨[], [⟨n, l, body.countP PyNode.isFunctionDef, d⟩], [], 0, []⟩
        (collectBody body)
  | .pyImport names => ⟨[], [], names.map some, 0, []⟩
  | .pyImportFrom m => ⟨[], [], [m], 0, []⟩
  | .ifStmt body => mergeParts ⟨[], [], [], 1, []⟩ (collectBody body)
  | .forStmt body => mergeParts ⟨[], [], [], 1, []⟩ (collectBody body)
  | .whileStmt body => mergeParts ⟨[], [], [], 1, []⟩ (collectBody body)
  | .tryStmt body => mergeParts ⟨[], [], [], 1, []⟩ (collectBody body)
  | .other body => collectBody body

/-- Fold `collectNode` over a child list. -/
def collectBody : List PyNode → StructParts
  | [] => emptyParts
  | n :: rest => mergeParts (collectNode n) (collectBody rest)

end

/-- `CodeAnalyzer._analyze_python_code`.  On a successful parse the walk
collects functions, classes, imports and the branch-count complexity; a
`SyntaxError` from `ast.parse` is caught and recorded as the single
diagnostic `"구문 오류: <detail>"`, with everything else left empty. -/
def analyze_python_code (pyParse : String → Except String PyNode)
    (code : String) : StructParts :=
  match pyParse code with
  | .ok tree =>
    let w := collectNode tree
    ⟨w.functions, w.classes, w.importedModules, w.complexity_score, []⟩
  | .error e => ⟨[], [], [], 0, ["구문 오류: " ++ e]⟩

/-! #### Generic (regex) path

`_analyze_generic_code` locates function declarations per line with
`re.findall` on a per-language pattern and takes the first match of the line.
The two patterns are hand-compiled below; both consist of literals, character
classes and greedy repetitions over the disjoint classes `\w` and `\s`, so
the greedy scan (with the bounded alternation of the two optional Java
groups) is exactly the regex backtracking semantics. -/

/-- `re` match of `function\s+(\w+)` anchored at the start of `s`: the
literal, at least one space character, then the group — a maximal nonempty
run of word characters. -/
def jsFuncAt (s : List Char) : Option String :=
  if "function".data.isPrefixOf s then
    let r1 := s.drop 8
    let r2 := r1.dropWhile isSpaceChar
    let name := r2.takeWhile isWordChar
    if r1.takeWhile isSpaceChar ≠ [] ∧ name ≠ [] then some (String.mk name)
    else none
  else none

/-- Leftmost match of `function\s+(\w+)` in a line (the scan of
`re.findall`, of which the source keeps only the first match). -/
def jsFuncName : List Char → Option String
  | [] => none
  | c :: rest =>
    match jsFuncAt (c :: rest) with
    | some n => some n
    | none => jsFuncName rest

/-- The mandatory tail `\w+\s+(\w+)\s*\(` of the Java pattern, anchored at
`s`; returns the group `(\w+)`. -/
def javaTailAt (s : List Char) : Option String :=
  let w1 := s.takeWhile isWordChar
  let r1 := s.dropWhile isWordChar
  let sp := r1.takeWhile isSpaceChar
  let r2 := r1.dropWhile isSpaceChar
  let w2 := r2.takeWhile isWordChar
  let r3 := r2.dropWhile isWordChar
  let r4 := r3.dropWhile isSpaceChar
  if w1 ≠ [] ∧ sp ≠ [] ∧ w2 ≠ [] ∧ r4.head? = some '(' then some (String.mk w2)
  else none

/-- One backtracking alternative of the two optional groups
`(public|private|protected)?\s*(static)?\s*` followed by the tail. -/
def javaComboAt (modifierOpt : Option String) (withStatic : Bool)
    (s : List Char) : Option String :=
  let afterMod : Option (List Char) :=
    match modifierOpt with
    | none => some s
    | some m => if m.data.isPrefixOf s then some (s.drop m.length) else none
  match afterMod with
  | none => none
  | some r1 =>
    let r2 := r1.dropWhile isSpaceChar
    let afterStatic : Option (List Char) :=
      if withStatic then
        if "static".data.isPrefixOf r2 then some (r2.drop 6) else none
      else some r2
    match afterStatic with
    | none => none
    | some r3 => javaTailAt (r3.dropWhile isSpaceChar)

/-- Match of `(public|private|protected)?\s*(static)?\s*\w+\s+(\w+)\s*\(`
anchored at `s`, trying the greedy alternatives in regex backtracking order;
returns the last group (the source reads `matches[0][-1]`). -/
def javaFuncAt (s : List Char) : Option String :=
  (javaComboAt (some "public") true s).orElse fun _ =>
  (javaComboAt (some "public") false s).orElse fun _ =>
  (javaComboAt (some "private") true s).orElse fun _ =>
  (javaComboAt (some "private") false s).orElse fun _ =>
  (javaComboAt (some "protected") true s).orElse fun _ =>
  (javaComboAt (some "protected") false s).orElse fun _ =>
  (javaComboAt none true s).orElse fun _ =>
  javaComboAt none false s

/-- Leftmost match of the Java function pattern in a line. -/
def javaFuncName : List Char → Option String
  | [] => none
  | c :: rest =>
    match javaFuncAt (c :: rest) with
    | some n => some n
    | none => javaFuncName rest

/-- The complexity keywords of `_analyze_generic_code`. -/
def complexity_keywords : List String :=
  ["if", "for", "while", "switch", "case", "try", "catch"]

/-- `CodeAnalyzer._analyze_generic_code`: per-line first-match function
extraction for the three patterned languages, plus whole-word complexity
keyword counting over every line. -/
def analyze_generic_code (code language : String) : StructParts :=
  let lines := splitLines code
  let functions :=
    if language = "javascript" ∨ language = "typescript" then
      (lines.enum).flatMap fun p =>
        match jsFuncName p.2.data with
        | some n => [(⟨n, p.1 + 1, none, none⟩ : FunctionInfo)]
        | none => []
    else if language = "java" then
      (lines.enum).flatMap fun p =>
        match javaFuncName p.2.data with
        | some n => [(⟨n, p.1 + 1, none, none⟩ : FunctionInfo)]
        | none => []
    else []
  let complexity := lines.foldl
    (fun acc line => acc + keywordScore line complexity_keywords) 0
  ⟨functions, [], [], complexity, []⟩

/-- The full analysis dict. -/
structure Analysis where
  lines_of_code : Nat
  functions : List FunctionInfo
  classes : List ClassInfo
  importedModules : List (Option String)
  complexity_score : Nat
  issues : List String
deriving DecidableEq, Repr

/-- `CodeAnalyzer.analyze_code_structure`: seeds `lines_of_code` with
`len(code.split('\n'))` and merges in the language path (`dict.update`
replaces every key the path produced; both paths produce all keys except
`lines_of_code`). -/
def analyze_code_structure (pyParse : String → Except String PyNode)
    (code language : String) : Analysis :=
  let parts :=
    if language = "python" then analyze_python_code pyParse code
    else analyze_generic_code code language
  ⟨(splitLines code).length, parts.functions, parts.classes,
   parts.importedModules, parts.complexity_score, parts.issues⟩

example :
    analyze_generic_code "function add(a, b) : int" "javascript" =
      ⟨[⟨"add", 1, none, none⟩], [], [], 0, []⟩ := by decide

example :
    (analyze_generic_code "public static void main(String a)" "java").functions =
      [⟨"main", 1, none, none⟩] := by decide

example :
    (analyze_generic_code "if (x) { for(;;) try {} catch(e) {} }" "javascript").complexity_score
      = 4 := by decide

/-! ### Issues

An issue is a Python dict; the keys the core ever reads are `type`,
`severity`, `line` and `message`, each possibly absent (`none`).  The
rule-based checker always produces all four; issues decoded from model JSON
may lack any of them, and `severity` may hold an arbitrary string. -/

structure Issue where
  type : Option String
  severity : Option String
  line : Option Nat
  message : Option String
deriving DecidableEq, Repr

/-! ### Rule-based issue checker (`CodeAnalyzer.check_code_quality_issues`) -/

def isQuoteChar (c : Char) : Bool := c = '"' || c = '\''

/-- Scanning state after an opening quote for the pattern
`["\'][^"\']*[0-9]{2,}[^"\']*["\']`: `prevDigit` — the previous scanned
character was a digit; `seenPair` — two consecutive digits occurred since the
opening quote.  On a closing quote the match succeeds if a digit pair was
seen; otherwise that quote starts a new candidate match. -/
def hardcodedFrom (prevDigit seenPair : Bool) : List Char → Bool
  | [] => false
  | c :: rest =>
    if isQuoteChar c then seenPair || hardcodedFrom false false rest
    else hardcodedFrom c.isDigit (seenPair || (prevDigit && c.isDigit)) rest

/-- `re.search(r'["\'][^"\']*[0-9]{2,}[^"\']*["\']', line)` succeeds: some
pair of successive quote characters has two adjacent ASCII digits strictly
between them. -/
def hasHardcodedValue : List Char → Bool
  | [] => false
  | c :: rest =>
    if isQuoteChar c then hardcodedFrom false false rest
    else hasHardcodedValue rest

example : hasHardcodedValue "url = \"host:8080\"".data = true := by decide
example : hasHardcodedValue "x = 8080".data = false := by decide
example : hasHardcodedValue "s = \"a1b2\"".data = false := by decide

/-- The long-line message, `f'라인이 너무 깁니다 ({n} 문자). ...'`. -/
def longLineMessage (n : Nat) : String :=
  "라인이 너무 깁니다 (" ++ toString n ++ " 문자). 120자 이하로 줄이는 것을 권장합니다."

def hardcodedMessage : String :=
  "하드코딩된 값이 발견되었습니다. 상수로 정의하는 것을 고려해보세요."

def fromImportMessage : String :=
  "from import는 일반 import 앞에 위치하는 것이 좋습니다."

def bareExceptMessage : String :=
  "구체적인 예외 타입을 명시하는 것이 좋습니다."

def varMessage : String :=
  "var 대신 let 또는 const 사용을 권장합니다."

def looseEqMessage : String :=
  "== 대신 === 사용을 권장합니다."

/-- The common per-line checks: line longer than 120 characters (`Warning`),
then the hard-coded-value pattern (`Info`). -/
def commonLineIssues (lineNum : Nat) (line : String) : List Issue :=
  (if line.data.length > 120 then
    [⟨some "Code Quality", some "Warning", some lineNum,
      some (longLineMessage line.data.length)⟩]
  else []) ++
  (if hasHardcodedValue line.data then
    [⟨some "Best Practices", some "Info", some lineNum, some hardcodedMessage⟩]
  else [])

/-- `CodeAnalyzer._check_python_issues`: `from `-import directly after a
plain `import ` line (`Info`), and `except:` occurring in the stripped line
(`Warning`). -/
def check_python_issues (lines : List String) : List Issue :=
  (lines.enum).flatMap fun p =>
    let i := p.1
    let stripped := pyStrip p.2
    (if strStartsWith stripped "from " && decide (0 < i) &&
        (match lines.get? (i - 1) with
         | some prevLine =>
           strStartsWith (pyStrip prevLine) "import " &&
             !strStartsWith (pyStrip prevLine) "from "
         | none => false) then
      [⟨some "Best Practices", some "Info", some (i + 1), some fromImportMessage⟩]
    else []) ++
    (if containsSub "except:".data stripped.data then
      [⟨some "Best Practices", some "Warning", some (i + 1), some bareExceptMessage⟩]
    else [])

/-- `CodeAnalyzer._check_js_issues`: whole-word `var` in the stripped line
(`Warning`), and `'==' in stripped and '===' not in stripped` (`Warning`). -/
def check_js_issues (lines : List String) : List Issue :=
  (lines.enum).flatMap fun p =>
    let i := p.1
    let stripped := pyStrip p.2
    (if hasWord "var" stripped then
      [⟨some "Best Practices", some "Warning", some (i + 1), some varMessage⟩]
    else []) ++
    (if containsSub "==".data stripped.data && !containsSub "===".data stripped.data then
      [⟨some "Best Practices", some "Warning", some (i + 1), some looseEqMessage⟩]
    else [])

/-- `CodeAnalyzer.check_code_quality_issues`: the common checks over all
lines, then the language-specific checks. -/
def check_code_quality_issues (code language : String) : List Issue :=
  let lines := splitLines code
  ((lines.enum).flatMap fun p => commonLineIssues (p.1 + 1) p.2) ++
  (if language = "python" then check_python_issues lines
   else if language = "javascript" ∨ language = "typescript" then
     check_js_issues lines
   else [])

example :
    check_code_quality_issues "var x = 1; if (x == 1) {}" "javascript" =
      [⟨some "Best Practices", some "Warning", some 1, some varMessage⟩,
       ⟨some "Best Practices", some "Warning", some 1, some looseEqMessage⟩] := by
  decide

example :
    check_code_quality_issues "import os\nfrom sys import path\ntry:\nexcept:\n" "python" =
      [⟨some "Best Practices", some "Info", some 2, some fromImportMessage⟩,
       ⟨some "Best Practices", some "Warning", some 4, some bareExceptMessage⟩] := by
  decide

/-! ### Knowledge retrieval (`rag_manager.py`)

The vector store is external; `search_knowledge` is a parameter
`search : String → Nat → List Document` (it already catches its own
exceptions in the source, returning `[]`, so it is total).  A document's
metadata dict is read only through `.get` with defaults, via the keys below. -/

structure DocMetadata where
  category : Option String
  title : Option String
  language : Option String
  severity : Option String
deriving DecidableEq, Repr

structure Document where
  page_content : String
  metadata : DocMetadata
deriving DecidableEq, Repr

/-- The per-issue query loop of `get_relevant_practices`:
`f"{issue['type']} {issue['message']} {language}"` — direct subscripting, so
a missing `type` or `message` key raises `KeyError` (modeled as `none`). -/
def relevantDocsFor (search : String → Nat → List Document) (language : String) :
    List Issue → Option (List Document)
  | [] => some []
  | issue :: rest =>
    match issue.type, issue.message with
    | some t, some m =>
      match relevantDocsFor search language rest with
      | some docs => some (search (t ++ " " ++ m ++ " " ++ language) 2 ++ docs)
      | none => none
    | _, _ => none

/-- The dedup loop: keep a document iff its `page_content` was not seen
before (the source's `seen_content` set, as a list). -/
def dedupDocs : List Document → List String → List Document
  | [], _ => []
  | d :: rest, seen =>
    if d.page_content ∈ seen then dedupDocs rest seen
    else d :: dedupDocs rest (d.page_content :: seen)

/-- `RAGSystem.get_relevant_practices`: two retrieval results per issue,
concatenated, deduplicated by exact content, first five kept.  `none` models
the `KeyError` on an issue lacking `type` or `message`. -/
def get_relevant_practices (search : String → Nat → List Document)
    (code_issues : List Issue) (language : String) : Option (List Document) :=
  match relevantDocsFor search language code_issues with
  | some docs => some ((dedupDocs docs []).take 5)
  | none => none

/-! ### LLM wrapper (`lim_manager.py`) -/

/-- `LLMManager.generate_response`: the underlying chat-model invocation is a
parameter that either returns the response content or raises; the wrapper
catches every exception and returns the error text
`f"오류가 발생했습니다: {e}"` instead (it never raises). -/
def generate_response (invoke : String → String → Except String String)
    (system_prompt user_prompt : String) : String :=
  match invoke system_prompt user_prompt with
  | .ok content => content
  | .error e => "오류가 발생했습니다: " ++ e

/-! ### Review state and stages (`agents/code_review_agents.py`)

`CodeReviewState` with its fields in declaration order; the `messages` field
is omitted — no stage ever reads or writes it. -/

structure Recommendation where
  category : String
  title : String
  content : String
  language : String
deriving DecidableEq, Repr

structure ReviewState where
  code : String
  filename : String
  language : String
  analysis_result : Analysis
  issues : List Issue
  recommendations : List Recommendation
  optimized_code : String
  current_step : String
deriving DecidableEq, Repr

/-- `CodeReviewAgents._analyzer_agent`: detect the language, analyze the
structure, seed the issue list with the rule-based checks. -/
def analyzer_agent (pyParse : String → Except String PyNode)
    (state : ReviewState) : ReviewState :=
  let language := detect_language state.code state.filename
  let analysis_result := analyze_code_structure pyParse state.code language
  let issues := check_code_quality_issues state.code language
  { state with
      language := language
      analysis_result := analysis_result
      issues := issues
      current_step := "analysis_complete" }

/-- What a stage recovers from `json.loads(response)` in the
schema-conforming cases: the response parses to a dict and each listed key
(read via `.get(key, [])`, or `.get("optimized_code", "")`) holds a list of
issue dicts, a missing key contributing the empty default; `none` stands for
an exception inside the stage's `try` (invalid JSON, a non-dict parse, a
non-iterable key value).  This typing is deliberately partial: the source
performs no schema validation, and a dict whose key holds any *other*
iterable — a string, a dict — is accepted by `list.extend`, which appends
that iterable's elements (one-character strings, keys) to the state's issue
list; such non-dict elements are not representable in the `Issue`-typed
state of this embedding.  That uncontained path is modeled at the
decoded-JSON layer by `PyVal` / `stageTryAppends` below, where it is shown
to change the state. -/
structure ParsedResponse where
  issues : List Issue
  vulnerabilities : List Issue
  optimizations : List Issue
  suggestions : List Issue
  optimized_code : String

/-- The quality prompt (its exact wording is irrelevant here: the model is
abstract; we keep the data it embeds). -/
def qualityPrompt (state : ReviewState) : String :=
  "quality " ++ state.language ++ " " ++ state.code

def securityPrompt (securityContext : String) (state : ReviewState) : String :=
  "security " ++ state.language ++ " " ++ state.code ++ " " ++ securityContext

def performancePrompt (performanceContext : String) (state : ReviewState) : String :=
  "performance " ++ state.language ++ " " ++ state.code ++ " " ++ performanceContext

def documentationPrompt (state : ReviewState) : String :=
  "documentation " ++ state.language ++ " " ++ state.code

/-- `"\n".join(doc.page_content for doc in docs)`. -/
def joinContents (docs : List Document) : String :=
  String.intercalate "\n" (docs.map (·.page_content))

/-- `CodeReviewAgents._quality_checker_agent`: on a parsed response, extend
`issues` with the response's `issues` and advance the step marker; any
failure inside the `try` (model call — already contained inside
`generate_response` — or `json.loads`, or the dict access) leaves the state
untouched. -/
def quality_checker_agent (invoke : String → String → Except String String)
    (jsonParse : String → Option ParsedResponse)
    (state : ReviewState) : ReviewState :=
  let response := generate_response invoke "" (qualityPrompt state)
  match jsonParse response with
  | some r =>
    { state with
        issues := state.issues ++ r.issues
        current_step := "quality_check_complete" }
  | none => state

/-- `CodeReviewAgents._security_reviewer_agent`: retrieves security context
(outside the `try`; `search_knowledge` is total), then appends the parsed
`vulnerabilities` on success. -/
def security_reviewer_agent (invoke : String → String → Except String String)
    (jsonParse : String → Option ParsedResponse)
    (search : String → Nat → List Document)
    (state : ReviewState) : ReviewState :=
  let security_docs := search ("security " ++ state.language) 3
  let response := generate_response invoke ""
    (securityPrompt (joinContents security_docs) state)
  match jsonParse response with
  | some r =>
    { state with
        issues := state.issues ++ r.vulnerabilities
        current_step := "security_review_complete" }
  | none => state

/-- `CodeReviewAgents._performance_optimizer_agent`: appends the parsed
`optimizations` and stores `optimized_code` (default `""`) on success. -/
def performance_optimizer_agent (invoke : String → String → Except String String)
    (jsonParse : String → Option ParsedResponse)
    (search : String → Nat → List Document)
    (state : ReviewState) : ReviewState :=
  let performance_docs := search ("performance optimization " ++ state.language) 3
  let response := generate_response invoke ""
    (performancePrompt (joinContents performance_docs) state)
  match jsonParse response with
  | some r =>
    { state with
        issues := state.issues ++ r.optimizations
        optimized_code := r.optimized_code
        current_step := "performance_optimization_complete" }
  | none => state

/-- `CodeReviewAgents._documentation_generator_agent`: appends the parsed
`suggestions` on success. -/
def documentation_generator_agent (invoke : String → String → Except String String)
    (jsonParse : String → Option ParsedResponse)
    (state : ReviewState) : ReviewState :=
  let response := generate_response invoke "" (documentationPrompt state)
  match jsonParse response with
  | some r =>
    { state with
        issues := state.issues ++ r.suggestions
        current_step := "documentation_complete" }
  | none => state

/-! ### Final stage: severity sort and recommendations -/

/-- `priority_order.get(x.get("severity", "Info"), 2)`: an absent severity
reads as `"Info"`; a present one is looked up in
`{"Critical": 0, "Warning": 1, "Info": 2}` with default `2`. -/
def severityRank (issue : Issue) : Nat :=
  match issue.severity with
  | none => 2
  | some s =>
    if s = "Critical" then 0
    else if s = "Warning" then 1
    else if s = "Info" then 2
    else 2

/-- Stable insertion of `x` into an already-sorted list built from the
issues to the right of `x` in the original order: `x` goes before the first
element of strictly greater rank, hence before all equal-rank elements that
followed it. -/
def insertByRank (x : Issue) : List Issue → List Issue
  | [] => [x]
  | y :: ys =>
    if severityRank y < severityRank x then y :: insertByRank x ys
    else x :: y :: ys

/-- Python `sorted(issues, key=severity rank)` — a stable sort by rank. -/
def sortIssues : List Issue → List Issue
  | [] => []
  | x :: rest => insertByRank x (sortIssues rest)

/-- `CodeReviewAgents._final_reviewer_agent`: build recommendations from the
deduplicated retrieval results (each metadata key via `.get` with its
default), then stably sort the issues by severity rank.  `none` propagates
the `KeyError` of `get_relevant_practices`. -/
def final_reviewer_agent (search : String → Nat → List Document)
    (state : ReviewState) : Option ReviewState :=
  match get_relevant_practices search state.issues state.language with
  | none => none
  | some relevant_practices =>
    let recommendations := relevant_practices.map fun practice =>
      ({ category := practice.metadata.category.getD "General"
         title := practice.metadata.title.getD "Best Practice"
         content := practice.page_content
         language := practice.metadata.language.getD "general" } : Recommendation)
    some { state with
        issues := sortIssues state.issues
        recommendations := recommendations
        current_step := "review_complete" }

/-! ### Summary synthesizer (`CodeReviewAgents._generate_summary`) -/

structure Summary where
  overall_score : Nat
  total_issues : Nat
  critical_count : Nat
  warning_count : Nat
  info_count : Nat
  category_breakdown : List (String × Nat)
  recommendations_count : Nat
deriving DecidableEq, Repr

/-- `issue.get("severity", "Info")`. -/
def severityKey (issue : Issue) : String := issue.severity.getD "Info"

/-- `issue.get("type", "General")`. -/
def typeKey (issue : Issue) : String := issue.type.getD "General"

/-- `type_count[t] = type_count.get(t, 0) + 1` on an insertion-ordered
dict. -/
def bumpType : List (String × Nat) → String → List (String × Nat)
  | [], t => [(t, 1)]
  | (k, n) :: rest, t =>
    if k = t then (k, n + 1) :: rest else (k, n) :: bumpType rest t

/-- The counting loop of `_generate_summary`.  `severity_count` is the dict
`{"Critical": 0, "Warning": 0, "Info": 0}` and the loop body executes
`severity_count[severity] += 1` by direct subscript: a severity outside the
three keys raises `KeyError` (`none`), unlike `type_count`, which is updated
through `.get` with a default and accepts any label. -/
def tallyIssues :
    List Issue → Nat × Nat × Nat → List (String × Nat) →
      Option ((Nat × Nat × Nat) × List (String × Nat))
  | [], sc, tc => some (sc, tc)
  | issue :: rest, (c, w, n), tc =>
    let s := severityKey issue
    if s = "Critical" then tallyIssues rest (c + 1, w, n) (bumpType tc (typeKey issue))
    else if s = "Warning" then tallyIssues rest (c, w + 1, n) (bumpType tc (typeKey issue))
    else if s = "Info" then tallyIssues rest (c, w, n + 1) (bumpType tc (typeKey issue))
    else none

/-- `CodeReviewAgents._generate_summary` on the result fields it reads
(`result.get("issues", [])` and `result.get("recommendations", [])`):
severity/category tally, weighted penalty
`3*critical + 2*warning + 1*info`, and
`overall_score = max(1, 10 - min(penalty, 9))`. -/
def generate_summary (issues : List Issue)
    (recommendations : List Recommendation) : Option Summary :=
  match tallyIssues issues (0, 0, 0) [] with
  | none => none
  | some ((c, w, n), tc) =>
    let penalty := 3 * c + 2 * w + 1 * n
    let overall_score := max 1 (10 - min penalty 9)
    some
      { overall_score := overall_score
        total_issues := issues.length
        critical_count := c
        warning_count := w
        info_count := n
        category_breakdown := tc
        recommendations_count := recommendations.length }

example :
    (generate_summary [] []).map (·.overall_score) = some 10 := by decide

example :
    (generate_summary
      [⟨some "Security", some "Critical", some 3, some "m"⟩,
       ⟨some "Code Quality", some "Warning", some 1, some "m"⟩] []).map
        (·.overall_score) = some 5 := by decide

/-! ### Severity vocabulary and weighted penalty -/

/-- The issue's effective severity (absent = `"Info"`) lies in the
three-value vocabulary of the data model. -/
def SeverityOk (issue : Issue) : Prop :=
  severityKey issue = "Critical" ∨ severityKey issue = "Warning" ∨
    severityKey issue = "Info"

instance (issue : Issue) : Decidable (SeverityOk issue) := by
  unfold SeverityOk; infer_instance

/-- Count of issues whose effective severity is `s`. -/
def countSeverity (s : String) (issues : List Issue) : Nat :=
  issues.countP (fun i => severityKey i == s)

/-- The weighted penalty of the scoring rule,
`3×countCritical + 2×countWarning + 1×countInfo`. -/
def weightedPenalty (issues : List Issue) : Nat :=
  3 * countSeverity "Critical" issues + 2 * countSeverity "Warning" issues +
    1 * countSeverity "Info" issues

lemma countSeverity_cons_self (s : String) (issue : Issue) (rest : List Issue)
    (h : severityKey issue = s) :
    countSeverity s (issue :: rest) = countSeverity s rest + 1 := by
  simp [countSeverity, List.countP_cons, h]

lemma countSeverity_cons_ne (s : String) (issue : Issue) (rest : List Issue)
    (h : severityKey issue ≠ s) :
    countSeverity s (issue :: rest) = countSeverity s rest := by
  simp only [countSeverity, List.countP_cons, beq_iff_eq]
  simp [h]

lemma tallyIssues_of_severityOk (issues : List Issue)
    (h : ∀ i ∈ issues, SeverityOk i) :
    ∀ c w n tc, ∃ tc2,
      tallyIssues issues (c, w, n) tc =
        some ((c + countSeverity "Critical" issues,
               w + countSeverity "Warning" issues,
               n + countSeverity "Info" issues), tc2) := by
  induction issues with
  | nil =>
    intro c w n tc
    exact ⟨tc, by simp [tallyIssues, countSeverity]⟩
  | cons issue rest ih =>
    intro c w n tc
    have hok : SeverityOk issue := h issue (by simp)
    have hrest : ∀ i ∈ rest, SeverityOk i := fun i hi => h i (by simp [hi])
    rcases hok with hc | hw | hn
    · obtain ⟨tc2, htc2⟩ := ih hrest (c + 1) w n (bumpType tc (typeKey issue))
      refine ⟨tc2, ?_⟩
      rw [show tallyIssues (issue :: rest) (c, w, n) tc =
            tallyIssues rest (c + 1, w, n) (bumpType tc (typeKey issue)) by
        simp [tallyIssues, hc]]
      rw [countSeverity_cons_self _ _ _ hc,
        countSeverity_cons_ne _ _ _ (by rw [hc]; decide),
        countSeverity_cons_ne _ _ _ (by rw [hc]; decide),
        show c + (countSeverity "Critical" rest + 1) =
          c + 1 + countSeverity "Critical" rest by omega]
      exact htc2
    · obtain ⟨tc2, htc2⟩ := ih hrest c (w + 1) n (bumpType tc (typeKey issue))
      refine ⟨tc2, ?_⟩
      rw [show tallyIssues (issue :: rest) (c, w, n) tc =
            tallyIssues rest (c, w + 1, n) (bumpType tc (typeKey issue)) by
        simp [tallyIssues, hw]]
      rw [countSeverity_cons_self _ _ _ hw,
        countSeverity_cons_ne _ _ _ (by rw [hw]; decide),
        countSeverity_cons_ne _ _ _ (by rw [hw]; decide),
        show w + (countSeverity "Warning" rest + 1) =
          w + 1 + countSeverity "Warning" rest by omega]
      exact htc2
    · obtain ⟨tc2, htc2⟩ := ih hrest c w (n + 1) (bumpType tc (typeKey issue))
      refine ⟨tc2, ?_⟩
      rw [show tallyIssues (issue :: rest) (c, w, n) tc =
            tallyIssues rest (c, w, n + 1) (bumpType tc (typeKey issue)) by
        simp [tallyIssues, hn]]
      rw [countSeverity_cons_self _ _ _ hn,
        countSeverity_cons_ne _ _ _ (by rw [hn]; decide),
        countSeverity_cons_ne _ _ _ (by rw [hn]; decide),
        show n + (countSeverity "Info" rest + 1) =
          n + 1 + countSeverity "Info" rest by omega]
      exact htc2

lemma countSeverity_total (issues : List Issue)
    (h : ∀ i ∈ issues, SeverityOk i) :
    countSeverity "Critical" issues + countSeverity "Warning" issues +
      countSeverity "Info" issues = issues.length := by
  induction issues with
  | nil => simp [countSeverity]
  | cons issue rest ih =>
    have hok : SeverityOk issue := h issue (by simp)
    have hrest : ∀ i ∈ rest, SeverityOk i := fun i hi => h i (by simp [hi])
    have ht := ih hrest
    rcases hok with hc | hw | hn
    · rw [countSeverity_cons_self _ _ _ hc,
        countSeverity_cons_ne _ _ _ (by rw [hc]; decide),
        countSeverity_cons_ne _ _ _ (by rw [hc]; decide), List.length_cons]
      omega
    · rw [countSeverity_cons_self _ _ _ hw,
        countSeverity_cons_ne _ _ _ (by rw [hw]; decide),
        countSeverity_cons_ne _ _ _ (by rw [hw]; decide), List.length_cons]
      omega
    · rw [countSeverity_cons_self _ _ _ hn,
        countSeverity_cons_ne _ _ _ (by rw [hn]; decide),
        countSeverity_cons_ne _ _ _ (by rw [hn]; decide), List.length_cons]
      omega

/-- C1 (counterexample).  The claim quantifies over every issue list, but an
issue whose `severity` value lies outside `{Critical, Warning, Info}` — the
model-backed stages append parsed JSON without validating it — makes
`severity_count[severity] += 1` raise `KeyError`: `_generate_summary`
returns no score at all, rather than an integer in `[1, 10]`. -/
theorem generate_summary_unknown_severity_raises :
    generate_summary [⟨some "Security", some "High", some 1, some "m"⟩] [] =
      none := by decide

/-- C1 (amended).  For every issue list whose issues all carry an effective
severity in `{Critical, Warning, Info}` (an absent severity defaults to
`Info`), `_generate_summary` returns an `overall_score` in `[1, 10]`, and
the score is `10` exactly when the issue list is empty. -/
theorem generate_summary_score_range (issues : List Issue)
    (recs : List Recommendation) (h : ∀ i ∈ issues, SeverityOk i) :
    ∃ summary, generate_summary issues recs = some summary ∧
      1 ≤ summary.overall_score ∧ summary.overall_score ≤ 10 ∧
      (summary.overall_score = 10 ↔ issues = []) := by
  obtain ⟨tc2, htc⟩ := tallyIssues_of_severityOk issues h 0 0 0 []
  have htotal := countSeverity_total issues h
  simp only [Nat.zero_add] at htc
  refine ⟨_, by unfold generate_summary; rw [htc], ?_, ?_, ?_⟩
  · show 1 ≤ max 1 (10 - min (3 * countSeverity "Critical" issues +
      2 * countSeverity "Warning" issues + 1 * countSeverity "Info" issues) 9)
    omega
  · show max 1 (10 - min (3 * countSeverity "Critical" issues +
      2 * countSeverity "Warning" issues + 1 * countSeverity "Info" issues) 9) ≤ 10
    omega
  · show max 1 (10 - min (3 * countSeverity "Critical" issues +
      2 * countSeverity "Warning" issues + 1 * countSeverity "Info" issues) 9) = 10
      ↔ issues = []
    constructor
    · intro h10
      refine List.length_eq_zero.mp ?_
      omega
    · rintro rfl
      simp [countSeverity]

/-- C1 (witness): the amended range theorem applied to a one-`Info` list. -/
theorem generate_summary_score_range_witness :
    ∃ summary,
      generate_summary [⟨some "Best Practices", some "Info", some 1, some "m"⟩]
        [] = some summary ∧
      1 ≤ summary.overall_score ∧ summary.overall_score ≤ 10 ∧
      (summary.overall_score = 10 ↔
        ([⟨some "Best Practices", some "Info", some 1, some "m"⟩] : List Issue)
          = []) :=
  generate_summary_score_range _ _ (by decide)

/-- C5 (counterexample).  A list of nine `Info` issues plus one issue whose
severity string is out of vocabulary has weighted penalty `9 ≥ 9`, yet
`_generate_summary` raises `KeyError` on it instead of returning the score
`1`. -/
theorem penalty_saturation_counterexample :
    9 ≤ weightedPenalty
        (List.replicate 9 ⟨some "Documentation", some "Info", some 1, some "d"⟩
          ++ [⟨some "Security", some "High", some 2, some "s"⟩]) ∧
      generate_summary
        (List.replicate 9 ⟨some "Documentation", some "Info", some 1, some "d"⟩
          ++ [⟨some "Security", some "High", some 2, some "s"⟩]) [] = none := by
  decide

/-- C5 (amended).  For every issue list with in-vocabulary severities whose
weighted penalty `3×countCritical + 2×countWarning + 1×countInfo` is at
least `9`, the synthesizer returns `overall_score = 1`. -/
theorem penalty_saturation_score_one (issues : List Issue)
    (recs : List Recommendation) (h : ∀ i ∈ issues, SeverityOk i)
    (hp : 9 ≤ weightedPenalty issues) :
    ∃ summary, generate_summary issues recs = some summary ∧
      summary.overall_score = 1 := by
  obtain ⟨tc2, htc⟩ := tallyIssues_of_severityOk issues h 0 0 0 []
  simp only [Nat.zero_add] at htc
  refine ⟨_, by unfold generate_summary; rw [htc], ?_⟩
  show max 1 (10 - min (3 * countSeverity "Critical" issues +
    2 * countSeverity "Warning" issues + 1 * countSeverity "Info" issues) 9) = 1
  unfold weightedPenalty at hp
  omega

/-- C5 (witness): three `Critical` issues saturate the penalty and force the
floor score. -/
theorem penalty_saturation_score_one_witness :
    ∃ summary,
      generate_summary
        (List.replicate 3 ⟨some "Security", some "Critical", some 1, some "x"⟩)
        [] = some summary ∧ summary.overall_score = 1 :=
  penalty_saturation_score_one _ _ (by decide) (by decide)

/-! ### C3: the keyword-scoring path of the detector -/

/-- "No known extension matches the filename" (every extension of every
table entry fails `filename.endswith`) makes the extension loop contribute
nothing — also when `filename` is empty and the loop is skipped outright. -/
lemma extensionMatch_eq_none (filename : String)
    (h : ∀ p ∈ language_patterns, ∀ ext ∈ p.2.1,
      strEndsWith filename ext = false) :
    extensionMatch filename = none := by
  simp only [language_patterns, List.forall_mem_cons, List.forall_mem_nil] at h
  obtain ⟨⟨h1, -⟩, ⟨h2, h3, -⟩, ⟨h4, h5, -⟩, ⟨h6, -⟩, -⟩ := h
  unfold extensionMatch
  split_ifs with hf
  · rfl
  · simp [language_patterns, List.findSome?, h1, h2, h3, h4, h5, h6]

/-- With no extension match the detector reduces to first-maximal keyword
scoring over the table. -/
lemma detect_language_of_no_ext (code filename : String)
    (h : extensionMatch filename = none) :
    detect_language code filename =
      firstMax ("python",
          keywordScore code
            ["def", "class", "import", "from", "if", "for", "while", "try", "except"])
        [("javascript",
            keywordScore code
              ["function", "var", "let", "const", "if", "for", "while", "try", "catch"]),
         ("typescript",
            keywordScore code
              ["function", "var", "let", "const", "interface", "type", "class"]),
         ("java",
            keywordScore code
              ["public", "private", "class", "interface", "if", "for", "while", "try", "catch"])] := by
  unfold detect_language
  rw [h]
  rfl

/-- C3 (counterexample).  On input with no keyword signal at all and a
filename (`"a.txt"`) matched by no known extension, every language scores
zero, yet `detect_language` does not return the sentinel `"unknown"`:
`max(scores, key=scores.get)` over the never-empty score dict returns its
first key, `"python"` (the `if scores else 'unknown'` fallback tests dict
emptiness, not zero scores, and is unreachable).  The same holds with no
filename at all. -/
theorem detect_language_zero_scores_counterexample :
    (∀ p ∈ language_patterns, keywordScore "" p.2.2 = 0) ∧
      (∀ p ∈ language_patterns, ∀ ext ∈ p.2.1,
        strEndsWith "a.txt" ext = false) ∧
      detect_language "" "a.txt" = "python" ∧
      detect_language "" "a.txt" ≠ "unknown" ∧
      detect_language "" "" = "python" := by
  decide

/-- C3 (amended).  For every code text and every filename matched by no
known extension, scoring decides: when every language's whole-word keyword
score is zero the first table language (`"python"`) is returned — not
`"unknown"` — and when one language's score strictly exceeds every other's,
that language is returned; the result is always one of the four table
languages, so `"unknown"` is unreachable. -/
theorem detect_language_keyword_scoring (code filename : String)
    (hnoext : ∀ p ∈ language_patterns, ∀ ext ∈ p.2.1,
      strEndsWith filename ext = false) :
    ((∀ p ∈ language_patterns, keywordScore code p.2.2 = 0) →
      detect_language code filename = "python") ∧
    (∀ p ∈ language_patterns,
      (∀ q ∈ language_patterns, q.1 ≠ p.1 →
        keywordScore code q.2.2 < keywordScore code p.2.2) →
      detect_language code filename = p.1) ∧
    (detect_language code filename = "python" ∨
      detect_language code filename = "javascript" ∨
      detect_language code filename = "typescript" ∨
      detect_language code filename = "java") := by
  have hext := extensionMatch_eq_none filename hnoext
  refine ⟨?_, ?_, ?_⟩
  · intro hz
    simp only [language_patterns, List.forall_mem_cons, List.forall_mem_nil] at hz
    obtain ⟨h1, h2, h3, h4, -⟩ := hz
    rw [detect_language_of_no_ext code filename hext]
    simp only [firstMax, List.foldl]
    rw [h1, h2, h3, h4]
    decide
  · intro p hp hq
    rw [detect_language_of_no_ext code filename hext]
    simp only [language_patterns, List.mem_cons, List.not_mem_nil, or_false] at hp
    rcases hp with rfl | rfl | rfl | rfl
    · simp only [language_patterns, List.forall_mem_cons, List.forall_mem_nil,
        and_true] at hq
      obtain ⟨-, g2, g3, g4, -⟩ := hq
      have i2 := g2 (by decide)
      have i3 := g3 (by decide)
      have i4 := g4 (by decide)
      simp only [firstMax, List.foldl]
      split_ifs <;> first | rfl | (exfalso; omega)
    · simp only [language_patterns, List.forall_mem_cons, List.forall_mem_nil,
        and_true] at hq
      obtain ⟨g1, -, g3, g4, -⟩ := hq
      have i1 := g1 (by decide)
      have i3 := g3 (by decide)
      have i4 := g4 (by decide)
      simp only [firstMax, List.foldl]
      split_ifs <;> first | rfl | (exfalso; omega)
    · simp only [language_patterns, List.forall_mem_cons, List.forall_mem_nil,
        and_true] at hq
      obtain ⟨g1, g2, -, g4, -⟩ := hq
      have i1 := g1 (by decide)
      have i2 := g2 (by decide)
      have i4 := g4 (by decide)
      simp only [firstMax, List.foldl]
      split_ifs <;> first | rfl | (exfalso; omega)
    · simp only [language_patterns, List.forall_mem_cons, List.forall_mem_nil,
        and_true] at hq
      obtain ⟨g1, g2, g3, -, -⟩ := hq
      have i1 := g1 (by decide)
      have i2 := g2 (by decide)
      have i3 := g3 (by decide)
      simp only [firstMax, List.foldl]
      split_ifs <;> first | rfl | (exfalso; omega)
  · rw [detect_language_of_no_ext code filename hext]
    simp only [firstMax, List.foldl]
    split_ifs <;> simp

/-- C3 (witness): the strict-domination conjunct discharged on an input with
the non-matching filename `"a.txt"` where the javascript keyword score (3)
strictly beats python (0), typescript (2) and java (1). -/
theorem detect_language_keyword_scoring_witness :
    detect_language "var x; let y; catch" "a.txt" = "javascript" :=
  (detect_language_keyword_scoring "var x; let y; catch" "a.txt"
      (by decide)).2.1
    ("javascript", ([".js", ".jsx"],
      ["function", "var", "let", "const", "if", "for", "while", "try", "catch"]))
    (by decide) (by decide)

/-! ### C4: the final stage's severity sort -/

lemma severityRank_le_two (issue : Issue) : severityRank issue ≤ 2 := by
  cases h : issue.severity with
  | none => simp [severityRank, h]
  | some s =>
    simp only [severityRank, h]
    split_ifs <;> omega

lemma insertByRank_append_of_lt (x : Issue) (a b : List Issue)
    (h : ∀ y ∈ a, severityRank y < severityRank x) :
    insertByRank x (a ++ b) = a ++ insertByRank x b := by
  induction a with
  | nil => rfl
  | cons y ys ih =>
    have hy : severityRank y < severityRank x := h y (by simp)
    simp only [List.cons_append, insertByRank, if_pos hy]
    exact congrArg (y :: ·) (ih (fun z hz => h z (by simp [hz])))

lemma insertByRank_of_not_lt (x : Issue) (b : List Issue)
    (h : ∀ y ∈ b, ¬severityRank y < severityRank x) :
    insertByRank x b = x :: b := by
  cases b with
  | nil => rfl
  | cons y ys => simp only [insertByRank, if_neg (h y (by simp))]

lemma rank_of_mem_filter {r : Nat} {l : List Issue} {y : Issue}
    (h : y ∈ l.filter (fun i => severityRank i == r)) : severityRank y = r := by
  have := (List.mem_filter.mp h).2
  simpa using this

lemma sortIssues_eq_filters (l : List Issue) :
    sortIssues l =
      l.filter (fun i => severityRank i == 0) ++
        l.filter (fun i => severityRank i == 1) ++
        l.filter (fun i => severityRank i == 2) := by
  induction l with
  | nil => rfl
  | cons x rest ih =>
    have hrank := severityRank_le_two x
    simp only [sortIssues, ih, List.filter_cons]
    rcases (by omega :
        severityRank x = 0 ∨ severityRank x = 1 ∨ severityRank x = 2) with h | h | h
    · rw [insertByRank_of_not_lt x _ (fun y _ => by omega)]
      simp [h]
    · rw [List.append_assoc,
        insertByRank_append_of_lt x _ _
          (fun y hy => by have := rank_of_mem_filter hy; omega),
        insertByRank_of_not_lt x _
          (fun y hy => by
            rcases List.mem_append.mp hy with hy1 | hy2
            · have := rank_of_mem_filter hy1; omega
            · have := rank_of_mem_filter hy2; omega)]
      simp [h]
    · rw [insertByRank_append_of_lt x _ _
          (fun y hy => by
            rcases List.mem_append.mp hy with hy1 | hy2
            · have := rank_of_mem_filter hy1; omega
            · have := rank_of_mem_filter hy2; omega),
        insertByRank_of_not_lt x _
          (fun y hy => by have := rank_of_mem_filter hy; omega)]
      simp [h]

lemma insertByRank_perm (x : Issue) (l : List Issue) :
    (insertByRank x l).Perm (x :: l) := by
  induction l with
  | nil => exact List.Perm.refl _
  | cons y ys ih =>
    simp only [insertByRank]
    split_ifs with h
    · exact (ih.cons y).trans (List.Perm.swap x y ys)
    · exact List.Perm.refl _

lemma sortIssues_perm (l : List Issue) : (sortIssues l).Perm l := by
  induction l with
  | nil => exact List.Perm.refl _
  | cons x rest ih =>
    exact (insertByRank_perm x (sortIssues rest)).trans (ih.cons x)

lemma pairwise_rank_le_of_const (r : Nat) (m : List Issue)
    (h : ∀ y ∈ m, severityRank y = r) :
    m.Pairwise (fun a b => severityRank a ≤ severityRank b) := by
  induction m with
  | nil => exact List.Pairwise.nil
  | cons y ys ih =>
    refine List.Pairwise.cons ?_ (ih fun z hz => h z (by simp [hz]))
    intro z hz
    rw [h y (by simp), h z (by simp [hz])]

lemma sortIssues_sorted (l : List Issue) :
    (sortIssues l).Pairwise (fun a b => severityRank a ≤ severityRank b) := by
  rw [sortIssues_eq_filters]
  refine List.pairwise_append.mpr ⟨List.pairwise_append.mpr
    ⟨pairwise_rank_le_of_const 0 _ (fun y hy => rank_of_mem_filter hy),
     pairwise_rank_le_of_const 1 _ (fun y hy => rank_of_mem_filter hy), ?_⟩,
    pairwise_rank_le_of_const 2 _ (fun y hy => rank_of_mem_filter hy), ?_⟩
  · intro a ha b hb
    rw [rank_of_mem_filter ha, rank_of_mem_filter hb]
    omega
  · intro a ha b hb
    rcases List.mem_append.mp ha with ha1 | ha2
    · rw [rank_of_mem_filter ha1, rank_of_mem_filter hb]; omega
    · rw [rank_of_mem_filter ha2, rank_of_mem_filter hb]; omega

lemma filter_rank_filter_rank (r j : Nat) (l : List Issue) :
    (l.filter (fun i => severityRank i == j)).filter
        (fun i => severityRank i == r) =
      if j = r then l.filter (fun i => severityRank i == j) else [] := by
  split_ifs with h
  · subst h
    refine List.filter_eq_self.mpr fun a ha => ?_
    simpa using rank_of_mem_filter ha
  · refine List.filter_eq_nil.mpr fun a ha => ?_
    have := rank_of_mem_filter ha
    simp [this, h]

lemma sortIssues_stable (r : Nat) (l : List Issue) :
    (sortIssues l).filter (fun i => severityRank i == r) =
      l.filter (fun i => severityRank i == r) := by
  rw [sortIssues_eq_filters, List.filter_append, List.filter_append,
    filter_rank_filter_rank, filter_rank_filter_rank, filter_rank_filter_rank]
  by_cases h0 : r = 0
  · subst h0
    simp
  · by_cases h1 : r = 1
    · subst h1
      simp
    · by_cases h2 : r = 2
      · subst h2
        simp
      · rw [if_neg (by omega), if_neg (by omega), if_neg (by omega)]
        simp only [List.append_nil, List.nil_append]
        refine (List.filter_eq_nil.mpr fun a _ => ?_).symm
        have := severityRank_le_two a
        simp only [beq_iff_eq]
        omega

/-- C4.  The final stage's sort is a stable severity sort: the output is a
permutation of the input, ranks are non-decreasing with
`Critical(0) < Warning(1) < Info(2)`, missing or unrecognized severities rank
as `Info`, equal-rank issues keep their input order (the rank-`r`
subsequence is preserved verbatim for every `r`), and the sorted list is
exactly what `_final_reviewer_agent` stores in the state it returns. -/
theorem final_sort_stable_by_severity (l : List Issue) :
    (sortIssues l).Perm l ∧
    (sortIssues l).Pairwise (fun a b => severityRank a ≤ severityRank b) ∧
    (∀ r, (sortIssues l).filter (fun i => severityRank i == r) =
      l.filter (fun i => severityRank i == r)) ∧
    (∀ issue : Issue, issue.severity = none → severityRank issue = 2) ∧
    (∀ issue : Issue, ∀ s, issue.severity = some s →
      s ≠ "Critical" → s ≠ "Warning" → severityRank issue = 2) ∧
    (∀ (search : String → Nat → List Document) (state result : ReviewState),
      final_reviewer_agent search state = some result →
        result.issues = sortIssues state.issues) := by
  refine ⟨sortIssues_perm l, sortIssues_sorted l, fun r => sortIssues_stable r l,
    ?_, ?_, ?_⟩
  · intro issue h
    simp [severityRank, h]
  · intro issue s h hc hw
    simp only [severityRank, h, if_neg hc, if_neg hw]
    split_ifs <;> rfl
  · intro search state result h
    unfold final_reviewer_agent at h
    rcases hg : get_relevant_practices search state.issues state.language with
      _ | docs
    · rw [hg] at h
      exact absurd h (by simp)
    · rw [hg] at h
      simp only [Option.some.injEq] at h
      rw [← h]

/-- C4 (witness): the sort theorem evaluated on a concrete mixed-severity
list — the permutation conjunct instantiated at a four-issue list. -/
theorem final_sort_stable_by_severity_witness :
    (sortIssues
      [⟨some "Code Quality", some "Warning", some 1, some "w1"⟩,
       ⟨some "Security", some "Critical", some 2, some "c1"⟩,
       ⟨some "Documentation", none, some 3, some "i1"⟩,
       ⟨some "Security", some "Critical", some 4, some "c2"⟩]).Perm
      [⟨some "Code Quality", some "Warning", some 1, some "w1"⟩,
       ⟨some "Security", some "Critical", some 2, some "c1"⟩,
       ⟨some "Documentation", none, some 3, some "i1"⟩,
       ⟨some "Security", some "Critical", some 4, some "c2"⟩] :=
  (final_sort_stable_by_severity _).1

/-! ### C2: failure containment in the enrichment stages

The `try` of each model-backed stage contains three failure modes — a failed
model call (already absorbed inside `generate_response`, which returns the
non-JSON error text), a response `json.loads` rejects, and a decoded value
that is not a dict (`.get` raises `AttributeError`) or whose stage key holds
a non-iterable (`list.extend` raises `TypeError` before any mutation).  It
does **not** contain a decoded dict whose stage key holds an iterable of the
wrong shape: `.get(key, [])` is handed to `list.extend` without validation,
so e.g. a JSON string under `"issues"` gets its characters appended as
issues and `current_step` advanced — the state changes.  The model below
replays the try block at the decoded-JSON layer to exhibit exactly that. -/

/-- A decoded JSON value as returned by `json.loads` (floating-point
numbers, which none of the stage paths inspect, are left out). -/
inductive PyVal where
  | str (s : String)
  | int (n : Int)
  | bool (b : Bool)
  | null
  | list (items : List PyVal)
  | dict (entries : List (String × PyVal))

/-- Python `v.get(key, default)`: `AttributeError` (`none`) unless `v` is a
dict; otherwise the binding of `key`, or the default. -/
def pyGet (v : PyVal) (key : String) (default : PyVal) : Option PyVal :=
  match v with
  | .dict entries => some ((entries.lookup key).getD default)
  | _ => none

/-- The elements Python `list.extend(v)` appends: a list's items, a string's
characters (each a one-character string), a dict's keys; `TypeError`
(`none`, and no mutation) for the non-iterable values. -/
def pyElements : PyVal → Option (List PyVal)
  | .list items => some items
  | .str s => some (s.data.map fun c => PyVal.str (String.mk [c]))
  | .dict entries => some (entries.map fun e => PyVal.str e.1)
  | _ => none

/-- The `try` block shared by the four enrichment stages, replayed at the
decoded-JSON layer (`key` is `"issues"`, `"vulnerabilities"`,
`"optimizations"` or `"suggestions"`): `json.loads(response)`, then
`.get(key, [])`, then `current_issues.extend(...)`.  `none` — an exception
inside the `try`, caught by the stage, state unchanged; `some l` — the block
runs to completion, appending the elements `l` to the state's issue list and
advancing `current_step`, i.e. changing the state. -/
def stageTryAppends (jsonLoads : String → Option PyVal) (key response : String) :
    Option (List PyVal) :=
  match jsonLoads response with
  | none => none
  | some v =>
    match pyGet v key (.list []) with
    | none => none
    | some items => pyElements items

/-- C2 (the failing input).  A schema-malformed but valid JSON response is
NOT contained: when the model's response decodes to a dict whose `issues`
key holds the string `"hi"`, the quality stage's try block runs to
completion — `.get` returns the string and `list.extend` iterates it —
appending the two one-character strings `"h"`, `"i"` as issues and advancing
the step marker, so the ReviewState changes (the same dynamics apply to the
other three stages and their keys). -/
theorem quality_stage_malformed_schema_appends
    (jsonLoads : String → Option PyVal) (response : String)
    (h : jsonLoads response = some (.dict [("issues", .str "hi")])) :
    stageTryAppends jsonLoads "issues" response =
      some [PyVal.str "h", PyVal.str "i"] := by
  unfold stageTryAppends
  rw [h]
  rfl

/-- C2 (witness): the failing input evaluated with a concrete decoder
stub. -/
theorem quality_stage_malformed_schema_appends_witness :
    stageTryAppends (fun _ => some (.dict [("issues", .str "hi")])) "issues"
      "response" = some [PyVal.str "h", PyVal.str "i"] :=
  quality_stage_malformed_schema_appends _ _ rfl

/-- The contained failure modes, for each of the four model-backed stages:
whenever the response triggers an exception inside the stage's `try`
(`jsonParse response = none`: invalid JSON, non-dict parse, non-iterable key
value) — which covers a failed model call, since `generate_response` then
returns the non-JSON error text `"오류가 발생했습니다: …"` — the stage
returns its input `ReviewState` unchanged.  This does **not** extend to a
schema-malformed iterable under the stage's key, which is appended
element-by-element (see `quality_stage_malformed_schema_appends`). -/
theorem enrichment_stage_failure_containment
    (invoke : String → String → Except String String)
    (jsonParse : String → Option ParsedResponse)
    (search : String → Nat → List Document) (state : ReviewState)
    (hq : jsonParse (generate_response invoke "" (qualityPrompt state)) = none)
    (hs : jsonParse (generate_response invoke ""
      (securityPrompt (joinContents (search ("security " ++ state.language) 3))
        state)) = none)
    (hp : jsonParse (generate_response invoke ""
      (performancePrompt
        (joinContents (search ("performance optimization " ++ state.language) 3))
        state)) = none)
    (hd : jsonParse (generate_response invoke "" (documentationPrompt state)) =
      none) :
    quality_checker_agent invoke jsonParse state = state ∧
    security_reviewer_agent invoke jsonParse search state = state ∧
    performance_optimizer_agent invoke jsonParse search state = state ∧
    documentation_generator_agent invoke jsonParse state = state := by
  refine ⟨?_, ?_, ?_, ?_⟩
  · simp only [quality_checker_agent, hq]
  · simp only [security_reviewer_agent, hs]
  · simp only [performance_optimizer_agent, hp]
  · simp only [documentation_generator_agent, hd]

def demoAnalysis : Analysis := ⟨1, [], [], [], 0, []⟩

def demoState : ReviewState :=
  ⟨"x = 1", "a.py", "python", demoAnalysis, [], [], "", "start"⟩

/-- Containment witness: with a raising model call and a parse that fails on
the resulting error text, all four stages fix the demo state. -/
theorem enrichment_stage_failure_containment_witness :
    quality_checker_agent (fun _ _ => Except.error "timeout") (fun _ => none)
        demoState = demoState ∧
    security_reviewer_agent (fun _ _ => Except.error "timeout") (fun _ => none)
        (fun _ _ => []) demoState = demoState ∧
    performance_optimizer_agent (fun _ _ => Except.error "timeout")
        (fun _ => none) (fun _ _ => []) demoState = demoState ∧
    documentation_generator_agent (fun _ _ => Except.error "timeout")
        (fun _ => none) demoState = demoState :=
  enrichment_stage_failure_containment _ _ _ _ rfl rfl rfl rfl

/-! ### C9: stages never touch `code` and `filename` -/

/-- C9.  Every pipeline stage returns a state whose `code` and `filename`
equal those of its input: the two fields are set at state creation and never
modified by any stage (for the final stage, whenever it returns a state at
all). -/
theorem stages_preserve_code_filename
    (pyParse : String → Except String PyNode)
    (invoke : String → String → Except String String)
    (jsonParse : String → Option ParsedResponse)
    (search : String → Nat → List Document) (state : ReviewState) :
    ((analyzer_agent pyParse state).code = state.code ∧
      (analyzer_agent pyParse state).filename = state.filename) ∧
    ((quality_checker_agent invoke jsonParse state).code = state.code ∧
      (quality_checker_agent invoke jsonParse state).filename = state.filename) ∧
    ((security_reviewer_agent invoke jsonParse search state).code = state.code ∧
      (security_reviewer_agent invoke jsonParse search state).filename =
        state.filename) ∧
    ((performance_optimizer_agent invoke jsonParse search state).code =
        state.code ∧
      (performance_optimizer_agent invoke jsonParse search state).filename =
        state.filename) ∧
    ((documentation_generator_agent invoke jsonParse state).code = state.code ∧
      (documentation_generator_agent invoke jsonParse state).filename =
        state.filename) ∧
    (∀ result, final_reviewer_agent search state = some result →
      result.code = state.code ∧ result.filename = state.filename) := by
  refine ⟨⟨rfl, rfl⟩, ?_, ?_, ?_, ?_, ?_⟩
  · simp only [quality_checker_agent]
    cases hj : jsonParse (generate_response invoke "" (qualityPrompt state)) <;>
      simp [hj]
  · simp only [security_reviewer_agent]
    cases hj : jsonParse (generate_response invoke ""
        (securityPrompt
          (joinContents (search ("security " ++ state.language) 3)) state)) <;>
      simp [hj]
  · simp only [performance_optimizer_agent]
    cases hj : jsonParse (generate_response invoke ""
        (performancePrompt
          (joinContents (search ("performance optimization " ++ state.language) 3))
          state)) <;>
      simp [hj]
  · simp only [documentation_generator_agent]
    cases hj : jsonParse (generate_response invoke ""
        (documentationPrompt state)) <;>
      simp [hj]
  · intro result h
    unfold final_reviewer_agent at h
    split at h
    · exact absurd h (by simp)
    · simp only [Option.some.injEq] at h
      rw [← h]
      exact ⟨rfl, rfl⟩

/-- C9 (witness): the final-stage conjunct discharged on the demo state,
whose empty issue list makes the final stage succeed concretely. -/
theorem stages_preserve_code_filename_witness :
    ({ demoState with
        issues := []
        recommendations := []
        current_step := "review_complete" } : ReviewState).code =
      demoState.code ∧
    ({ demoState with
        issues := []
        recommendations := []
        current_step := "review_complete" } : ReviewState).filename =
      demoState.filename :=
  (stages_preserve_code_filename (fun _ => Except.error "e")
    (fun _ _ => Except.error "e") (fun _ => none) (fun _ _ => [])
    demoState).2.2.2.2.2 _ rfl

/-! ### C6: the structural analyzer never raises -/

/-- C6.  `analyze_code_structure` is a total function (the embedding of every
path returns), and on the python path a parse failure is contained: the facts
object carries empty function/class/import lists, zero complexity, and
exactly one non-empty recorded diagnostic `"구문 오류: <detail>"`. -/
theorem analyze_code_structure_syntax_error_recovery
    (pyParse : String → Except String PyNode) (code e : String)
    (h : pyParse code = Except.error e) :
    (analyze_code_structure pyParse code "python").functions = [] ∧
    (analyze_code_structure pyParse code "python").classes = [] ∧
    (analyze_code_structure pyParse code "python").importedModules = [] ∧
    (analyze_code_structure pyParse code "python").complexity_score = 0 ∧
    (analyze_code_structure pyParse code "python").issues =
      ["구문 오류: " ++ e] ∧
    ∀ d ∈ (analyze_code_structure pyParse code "python").issues, d ≠ "" := by
  have hp : analyze_python_code pyParse code =
      ⟨[], [], [], 0, ["구문 오류: " ++ e]⟩ := by
    unfold analyze_python_code
    rw [h]
  have hval : analyze_code_structure pyParse code "python" =
      ⟨(splitLines code).length, [], [], [], 0, ["구문 오류: " ++ e]⟩ := by
    show (⟨(splitLines code).length,
        (analyze_python_code pyParse code).functions,
        (analyze_python_code pyParse code).classes,
        (analyze_python_code pyParse code).importedModules,
        (analyze_python_code pyParse code).complexity_score,
        (analyze_python_code pyParse code).issues⟩ : Analysis) = _
    rw [hp]
  rw [hval]
  refine ⟨rfl, rfl, rfl, rfl, rfl, ?_⟩
  intro d hd
  simp only [List.mem_singleton] at hd
  subst hd
  intro hbad
  have hdata := congrArg String.data hbad
  rw [String.data_append] at hdata
  rcases List.append_eq_nil.mp hdata with ⟨h1, -⟩
  exact absurd h1 (by decide)

/-- C6 (witness): a concrete failing parse on a malformed snippet. -/
theorem analyze_code_structure_syntax_error_recovery_witness :
    (analyze_code_structure (fun _ => Except.error "invalid syntax")
      "def f(:" "python").functions = [] ∧
    (analyze_code_structure (fun _ => Except.error "invalid syntax")
      "def f(:" "python").classes = [] ∧
    (analyze_code_structure (fun _ => Except.error "invalid syntax")
      "def f(:" "python").importedModules = [] ∧
    (analyze_code_structure (fun _ => Except.error "invalid syntax")
      "def f(:" "python").complexity_score = 0 ∧
    (analyze_code_structure (fun _ => Except.error "invalid syntax")
      "def f(:" "python").issues = ["구문 오류: " ++ "invalid syntax"] ∧
    ∀ d ∈ (analyze_code_structure (fun _ => Except.error "invalid syntax")
      "def f(:" "python").issues, d ≠ "" :=
  analyze_code_structure_syntax_error_recovery _ _ _ rfl

/-! ### C7: retrieval-merge dedup and cap -/

lemma dedupDocs_nodup (l : List Document) :
    ∀ seen, ((dedupDocs l seen).map (·.page_content)).Nodup ∧
      ∀ c ∈ (dedupDocs l seen).map (·.page_content), c ∉ seen := by
  induction l with
  | nil => intro seen; exact ⟨List.nodup_nil, by simp [dedupDocs]⟩
  | cons d rest ih =>
    intro seen
    by_cases hmem : d.page_content ∈ seen
    · simp only [dedupDocs, if_pos hmem]
      exact ih seen
    · simp only [dedupDocs, if_neg hmem]
      obtain ⟨hnd, hni⟩ := ih (d.page_content :: seen)
      refine ⟨?_, ?_⟩
      · simp only [List.map_cons]
        exact List.Nodup.cons (fun hc => (hni _ hc) (by simp)) hnd
      · intro c hc
        simp only [List.map_cons, List.mem_cons] at hc
        rcases hc with rfl | hc
        · exact hmem
        · intro hcs
          exact (hni c hc) (by simp [hcs])

/-- C7.  Whenever `get_relevant_practices` returns a list, that list holds at
most one entry per distinct `page_content` string and has length at most
five. -/
theorem get_relevant_practices_dedup_bound
    (search : String → Nat → List Document) (issues : List Issue)
    (language : String) (docs : List Document)
    (h : get_relevant_practices search issues language = some docs) :
    docs.length ≤ 5 ∧ (docs.map (·.page_content)).Nodup := by
  unfold get_relevant_practices at h
  split at h
  case h_2 => exact absurd h (by simp)
  case h_1 all hall =>
    simp only [Option.some.injEq] at h
    subst h
    refine ⟨?_, ?_⟩
    · rw [List.length_take]
      omega
    · exact ((List.take_sublist 5 (dedupDocs all [])).map
        (·.page_content)).nodup (dedupDocs_nodup all []).1

def demoDoc : Document := ⟨"content", ⟨none, none, none, none⟩⟩

/-- C7 (witness): a retrieval stub returning the same document twice yields
the single-element deduplicated list. -/
theorem get_relevant_practices_dedup_bound_witness :
    ([demoDoc] : List Document).length ≤ 5 ∧
      (([demoDoc] : List Document).map (·.page_content)).Nodup :=
  get_relevant_practices_dedup_bound (fun _ _ => [demoDoc, demoDoc])
    [⟨some "Best Practices", some "Warning", some 1, some "m"⟩] "python"
    [demoDoc] (by decide)

/-! ### C8: the loose-equality rule -/

/-- Modelled from the claim's wording, not from the source: a line "uses a
loose (non-strict) equality operator" when some occurrence of `==` is not
part of a strict operator — not preceded by `=` or `!` and not followed by
`=`. -/
def specLooseEqFrom (prev : Option Char) : List Char → Bool
  | '=' :: '=' :: rest =>
    ((prev != some '=') && (prev != some '!') && (rest.head? != some '=')) ||
      specLooseEqFrom (some '=') ('=' :: rest)
  | c :: rest => specLooseEqFrom (some c) rest
  | [] => false

/-- A line of code uses a loose equality operator (claim wording). -/
def specUsesLooseEquality (line : String) : Bool :=
  specLooseEqFrom none line.data

example : specUsesLooseEquality "if (x == 1)" = true := by decide
example : specUsesLooseEquality "if (x === 1)" = false := by decide
example : specUsesLooseEquality "if (x !== 1)" = false := by decide

/-- C8 (counterexample).  A line that uses a loose equality operator next to
a strict one is not flagged at all: the source's test is
`'==' in stripped and '===' not in stripped`, and the presence of `===`
anywhere in the line suppresses the warning the claim promises. -/
theorem js_loose_equality_counterexample :
    specUsesLooseEquality "if (a == b && c === d) x = 1;" = true ∧
      check_code_quality_issues "if (a == b && c === d) x = 1;" "javascript" =
        [] := by
  decide

/-- C8 (amended).  For javascript/typescript input, a `Warning` issue is
emitted for every line whose stripped text contains `==` but not `===` (not
for every line using a loose equality operator); in particular
`"var x = 1; if (x == 1) {}"` under filename `"a.js"` is detected as
javascript and yields exactly one `var` warning and one loose-equality
warning. -/
theorem js_loose_equality_warning (code language : String)
    (hl : language = "javascript" ∨ language = "typescript")
    (i : Nat) (line : String)
    (hline : (splitLines code).get? i = some line)
    (heq : containsSub "==".data (pyStrip line).data = true)
    (hneq : containsSub "===".data (pyStrip line).data = false) :
    (⟨some "Best Practices", some "Warning", some (i + 1),
        some looseEqMessage⟩ : Issue) ∈
      check_code_quality_issues code language ∧
    check_code_quality_issues "var x = 1; if (x == 1) {}" "javascript" =
      [⟨some "Best Practices", some "Warning", some 1, some varMessage⟩,
       ⟨some "Best Practices", some "Warning", some 1, some looseEqMessage⟩] ∧
    detect_language "var x = 1; if (x == 1) {}" "a.js" = "javascript" := by
  refine ⟨?_, by decide, by decide⟩
  simp only [check_code_quality_issues]
  refine List.mem_append_right _ ?_
  have hmem : (i, line) ∈ (splitLines code).enum := by
    rw [List.mem_enum_iff_get?]
    exact hline
  have hjs : (⟨some "Best Practices", some "Warning", some (i + 1),
      some looseEqMessage⟩ : Issue) ∈ check_js_issues (splitLines code) := by
    simp only [check_js_issues]
    refine List.mem_flatMap.mpr ⟨(i, line), hmem, ?_⟩
    refine List.mem_append_right _ ?_
    simp [heq, hneq]
  rcases hl with rfl | rfl
  · rw [if_neg (by decide), if_pos (by decide)]
    exact hjs
  · rw [if_neg (by decide), if_pos (by decide)]
    exact hjs

/-- C8 (witness): the amended rule discharged on the spec's own example
input. -/
theorem js_loose_equality_warning_witness :
    (⟨some "Best Practices", some "Warning", some (0 + 1),
        some looseEqMessage⟩ : Issue) ∈
      check_code_quality_issues "var x = 1; if (x == 1) {}" "javascript" ∧
    check_code_quality_issues "var x = 1; if (x == 1) {}" "javascript" =
      [⟨some "Best Practices", some "Warning", some 1, some varMessage⟩,
       ⟨some "Best Practices", some "Warning", some 1, some looseEqMessage⟩] ∧
    detect_language "var x = 1; if (x == 1) {}" "a.js" = "javascript" :=
  js_loose_equality_warning "var x = 1; if (x == 1) {}" "javascript"
    (Or.inl rfl) 0 "var x = 1; if (x == 1) {}" (by decide) (by decide)
    (by decide)

/-! ### C10: the rule-based path never emits `Critical` -/

lemma mem_ite_singleton {c : Prop} [Decidable c] {x issue : Issue}
    (h : issue ∈ if c then [x] else []) : issue = x := by
  split at h
  · simpa using h
  · exact absurd h (by simp)

lemma commonLineIssues_severity (n : Nat) (line : String) (issue : Issue)
    (h : issue ∈ commonLineIssues n line) :
    issue.severity = some "Warning" ∨ issue.severity = some "Info" := by
  simp only [commonLineIssues] at h
  rcases List.mem_append.mp h with h1 | h2
  · rw [mem_ite_singleton h1]
    exact Or.inl rfl
  · rw [mem_ite_singleton h2]
    exact Or.inr rfl

lemma check_python_issues_severity (lines : List String) (issue : Issue)
    (h : issue ∈ check_python_issues lines) :
    issue.severity = some "Warning" ∨ issue.severity = some "Info" := by
  simp only [check_python_issues] at h
  obtain ⟨p, -, hip⟩ := List.mem_flatMap.mp h
  rcases List.mem_append.mp hip with h1 | h2
  · rw [mem_ite_singleton h1]
    exact Or.inr rfl
  · rw [mem_ite_singleton h2]
    exact Or.inl rfl

lemma check_js_issues_severity (lines : List String) (issue : Issue)
    (h : issue ∈ check_js_issues lines) :
    issue.severity = some "Warning" ∨ issue.severity = some "Info" := by
  simp only [check_js_issues] at h
  obtain ⟨p, -, hip⟩ := List.mem_flatMap.mp h
  rcases List.mem_append.mp hip with h1 | h2
  · rw [mem_ite_singleton h1]
    exact Or.inl rfl
  · rw [mem_ite_singleton h2]
    exact Or.inl rfl

/-- C10.  Every issue emitted by the rule-based checker has severity
`Warning` or `Info`: the rule-based path never produces `Critical`. -/
theorem rule_checker_severity_invariant (code language : String) (issue : Issue)
    (h : issue ∈ check_code_quality_issues code language) :
    issue.severity = some "Warning" ∨ issue.severity = some "Info" := by
  simp only [check_code_quality_issues] at h
  rcases List.mem_append.mp h with hcom | hlang
  · obtain ⟨p, -, hip⟩ := List.mem_flatMap.mp hcom
    exact commonLineIssues_severity _ _ _ hip
  · split at hlang
    · exact check_python_issues_severity _ _ hlang
    · split at hlang
      · exact check_js_issues_severity _ _ hlang
      · exact absurd hlang (by simp)

/-- C10 (witness): the invariant discharged on a concrete `var` warning. -/
theorem rule_checker_severity_invariant_witness :
    (⟨some "Best Practices", some "Warning", some 1, some varMessage⟩ :
        Issue).severity = some "Warning" ∨
      (⟨some "Best Practices", some "Warning", some 1, some varMessage⟩ :
        Issue).severity = some "Info" :=
  rule_checker_severity_invariant "var x" "javascript" _ (by decide)

end CodeReview
